import Mathlib

/-!
Shallow embedding of the state-transition engine of `the-blockchain-bar`
(`database/state.go` together with the genesis file of the same package),
and proofs about it.

Modelling conventions:
* Go `uint`/`uint64` values are modelled as `Nat`.  The only subtraction in
  the code (`s.Balances[tx.From] -= tx.Cost(...)`) is guarded by the balance
  check of `ValidateTx`; the underflow-freedom of that guard is proved below
  (`validateTx_ok_cost_le`), so `Nat` subtraction agrees with Go's `uint`
  subtraction on every reachable call.
* Go maps (`map[common.Address]uint`) are modelled as association lists with
  Go read semantics: a missing key reads as `0` (`mapGet`), an assignment
  inserts or overwrites (`mapSet`).
* Addresses and hashes are opaque identifiers; `Nat` stands for both.
* External capabilities that the package consumes but does not define
  (signature authenticity, block content hashing, difficulty check, JSON
  serialization, the durable file append) are collected in the `Ext`
  structure and passed explicitly; the error value each failure site
  produces is a dedicated constructor of `Err`, mirroring the distinct
  `fmt.Errorf` sites of the source.
* Functions that mutate `*State` through a pointer are translated into
  state-passing style: they return the state after the call.  `ValidateTx`
  returns a `result × state` pair so that the absence of mutation on every
  control path is a provable statement rather than a modelling assumption.
-/

deriving instance DecidableEq for Except

namespace Tbb

/-- Account identity (Go `common.Address`), modelled as an opaque `Nat`. -/
abbrev Address := Nat

/-- Block hash (Go `Hash`, a 32-byte array), modelled as an opaque `Nat`. -/
abbrev Hash := Nat

/-- Go constant `TxGas = 22`. -/
def TxGas : Nat := 22

/-- Go constant `TxGasPriceDefault = 2`. -/
def TxGasPriceDefault : Nat := 2

/-- Go constant `TxFee = uint(22)`. -/
def TxFee : Nat := 22

/-- Modelled from the spec: the fixed block reward constant (`BlockReward`
is declared in another file of the package, not under the sources given;
the spec only calls it "a fixed unsigned constant", and no claim depends
on its value). -/
def BlockReward : Nat := 100

/-- Go `SignedTx`: sender, recipient, value, nonce, gas fields, timestamp,
plus opaque signature bytes (the signature itself is only consumed through
the authenticity capability). -/
structure SignedTx where
  From : Address
  To : Address
  Value : Nat
  Nonce : Nat
  Gas : Nat
  GasPrice : Nat
  Time : Nat
  Sig : Nat
deriving DecidableEq, Repr

/-- Go `BlockHeader`: parent hash, number, proof-of-work nonce, timestamp,
miner address. -/
structure BlockHeader where
  Parent : Hash
  Number : Nat
  Nonce : Nat
  Time : Nat
  Miner : Address
deriving DecidableEq, Repr

/-- Go `Block`: a header plus an ordered list of signed transactions. -/
structure Block where
  Header : BlockHeader
  TXs : List SignedTx
deriving DecidableEq, Repr

/-- The zero value `Block{}` used to seed the state in `NewStateFromDisk`. -/
def Block.zero : Block :=
  { Header := { Parent := 0, Number := 0, Nonce := 0, Time := 0, Miner := 0 }, TXs := [] }

/-- Modelled from the spec: `Block.GasReward` (declared in another file of
the package) is "the sum of `gas*gas_price` over all transactions in the
block". -/
def Block.GasReward (b : Block) : Nat :=
  (b.TXs.map (fun tx => tx.Gas * tx.GasPrice)).sum

/-- Modelled from the spec: `SignedTx.Cost` (declared in another file of
the package) is the transaction's total charge,
"`value + (fork active ? gas*gas_price : flat_fee)`". -/
def SignedTx.Cost (tx : SignedTx) (isTip1Fork : Bool) : Nat :=
  if isTip1Fork then tx.Value + tx.Gas * tx.GasPrice else tx.Value + TxFee

/-- Every distinct failure site of the package, one constructor per
`fmt.Errorf`/propagated-error site, carrying the values the message
formats. -/
inductive Err where
  | wrongBlockNumber (expected got : Nat)
  | wrongParent (expected got : Hash)
  | invalidBlockHash (h : Hash)
  | sigError
  | forgedSender (sender : Address)
  | badNonce (expected got : Nat)
  | insufficientGas (got required : Nat)
  | insufficientGasPrice (got required : Nat)
  | prematureGasFields
  | insufficientFunds (balance cost : Nat)
  | hashError
  | marshalError
  | writeError
  | unmarshalError
deriving DecidableEq, Repr

/-- Errors that only transaction validation produces (as opposed to the
block-level checks of `applyBlock` and the persistence path). -/
def Err.isTxErr : Err → Bool
  | .sigError => true
  | .forgedSender _ => true
  | .badNonce _ _ => true
  | .insufficientGas _ _ => true
  | .insufficientGasPrice _ _ => true
  | .prematureGasFields => true
  | .insufficientFunds _ _ => true
  | _ => false

/-- Go map read: a missing key reads as the zero value `0`. -/
def mapGet (m : List (Address × Nat)) (a : Address) : Nat :=
  match m with
  | [] => 0
  | (k, v) :: rest => if k = a then v else mapGet rest a

/-- Go map assignment: overwrite the existing entry or insert a new one. -/
def mapSet (m : List (Address × Nat)) (a : Address) (v : Nat) : List (Address × Nat) :=
  match m with
  | [] => [(a, v)]
  | (k, w) :: rest => if k = a then (k, v) :: rest else (k, w) :: mapSet rest a v

/-- External capabilities consumed by the package (spec section 6): signature
authenticity, block content hash, difficulty check, JSON serialization of a
block-file record, and the durable log append.  The two `Bool` fields say
whether the corresponding fallible operation succeeds; modelled from the
spec, an append either durably writes the whole record or fails leaving the
log unchanged. -/
structure Ext where
  isAuthentic : SignedTx → Except Unit Bool
  blockHash : Block → Except Unit Hash
  isBlockHashValid : Hash → Nat → Bool
  marshalOk : Hash → Block → Bool
  writeOk : Hash → Block → Bool

/-- Go `State`: balance and nonce tables, the persistent chain log (the
contents reachable through `dbFile`, as a list of appended records), the
latest block and its hash, the genesis flag, the mining difficulty and the
configured fork height. -/
structure State where
  Balances : List (Address × Nat)
  Account2Nonce : List (Address × Nat)
  dbLog : List (Hash × Block)
  latestBlock : Block
  latestBlockHash : Hash
  hasGenesisBlock : Bool
  miningDifficulty : Nat
  forkTIP1 : Nat
deriving DecidableEq, Repr

/-- Go `State.NextBlockNumber`: `0` before any block, else latest number
plus one. -/
def State.NextBlockNumber (s : State) : Nat :=
  if s.hasGenesisBlock = false then 0 else s.latestBlock.Header.Number + 1

/-- Go `State.LatestBlock`. -/
def State.LatestBlock (s : State) : Block := s.latestBlock

/-- Go `State.LatestBlockHash`. -/
def State.LatestBlockHash (s : State) : Hash := s.latestBlockHash

/-- Go `State.GetNextAccountNonce`: last-used nonce plus one, a missing
entry reading as zero. -/
def State.GetNextAccountNonce (s : State) (account : Address) : Nat :=
  mapGet s.Account2Nonce account + 1

/-- Go `State.IsTIP1Fork`: the fork is active when the next block number
reaches the configured threshold. -/
def State.IsTIP1Fork (s : State) : Bool :=
  decide (s.forkTIP1 ≤ s.NextBlockNumber)

/-- Go `State.Copy`: deep-copies the two tables and the scalar fields; the
file handle is not copied (the copy's log is empty and never used). -/
def State.Copy (s : State) : State :=
  { Balances := s.Balances
    Account2Nonce := s.Account2Nonce
    dbLog := []
    latestBlock := s.latestBlock
    latestBlockHash := s.latestBlockHash
    hasGenesisBlock := s.hasGenesisBlock
    miningDifficulty := s.miningDifficulty
    forkTIP1 := s.forkTIP1 }

/-- The fork-gated gas-field legality block of Go `ValidateTx`. -/
def validateGasFields (tx : SignedTx) (isFork : Bool) : Except Err Unit :=
  if isFork = true then
    if tx.Gas ≠ TxGas then Except.error (.insufficientGas tx.Gas TxGas)
    else if tx.GasPrice < TxGasPriceDefault then
      Except.error (.insufficientGasPrice tx.GasPrice TxGasPriceDefault)
    else Except.ok ()
  else
    if tx.Gas ≠ 0 ∨ tx.GasPrice ≠ 0 then Except.error .prematureGasFields
    else Except.ok ()

/-- Go `ValidateTx`.  The second component is the state after the call;
every return site of the source leaves the state exactly as received, which
the pairing makes a provable statement. -/
def ValidateTx (E : Ext) (tx : SignedTx) (s : State) : Except Err Unit × State :=
  match E.isAuthentic tx with
  | .error _ => (Except.error .sigError, s)
  | .ok ok =>
    if ok = false then (Except.error (.forgedSender tx.From), s)
    else if tx.Nonce ≠ s.GetNextAccountNonce tx.From then
      (Except.error (.badNonce (s.GetNextAccountNonce tx.From) tx.Nonce), s)
    else
      match validateGasFields tx s.IsTIP1Fork with
      | .error e => (Except.error e, s)
      | .ok _ =>
        if tx.Cost s.IsTIP1Fork > mapGet s.Balances tx.From then
          (Except.error (.insufficientFunds (mapGet s.Balances tx.From)
            (tx.Cost s.IsTIP1Fork)), s)
        else (Except.ok (), s)

/-- Go `ApplyTx`: validate, then debit the sender by the total cost, credit
the recipient by the value, and record the sender's nonce. -/
def ApplyTx (E : Ext) (tx : SignedTx) (s : State) : Except Err State :=
  match ValidateTx E tx s with
  | (.error e, _) => Except.error e
  | (.ok _, s1) =>
    let fromBal := mapGet s1.Balances tx.From - tx.Cost s1.IsTIP1Fork
    let s2 := { s1 with Balances := mapSet s1.Balances tx.From fromBal }
    let toBal := mapGet s2.Balances tx.To + tx.Value
    let s3 := { s2 with Balances := mapSet s2.Balances tx.To toBal }
    Except.ok { s3 with Account2Nonce := mapSet s3.Account2Nonce tx.From tx.Nonce }

/-- Stable insertion into a Time-sorted list: the new transaction goes in
front of the first strictly later one. -/
def insertTxByTime (tx : SignedTx) : List SignedTx → List SignedTx
  | [] => [tx]
  | y :: ys => if tx.Time < y.Time then tx :: y :: ys else y :: insertTxByTime tx ys

/-- Models the `sort.Slice(txs, Time-ascending)` call of Go `applyTXs`.
Go's `sort.Slice` does not specify the relative order of equal-`Time`
elements; this embedding fixes one deterministic refinement of it, a stable
insertion sort. -/
def sortTxsByTime : List SignedTx → List SignedTx
  | [] => []
  | tx :: txs => insertTxByTime tx (sortTxsByTime txs)

/-- The per-transaction loop of Go `applyTXs`. -/
def applyTxList (E : Ext) : List SignedTx → State → Except Err State
  | [], s => Except.ok s
  | tx :: txs, s =>
    match ApplyTx E tx s with
    | .error e => Except.error e
    | .ok s1 => applyTxList E txs s1

/-- Go `applyTXs`: sort by timestamp ascending, then apply in order. -/
def applyTXs (E : Ext) (txs : List SignedTx) (s : State) : Except Err State :=
  applyTxList E (sortTxsByTime txs) s

/-- The miner-credit tail of Go `applyBlock`: block reward first, then the
fork-gated top-up (`GasReward` when the fork is active, a flat fee per
transaction otherwise); the fork test reads the state after the first
credit, exactly as the source does. -/
def creditMiner (b : Block) (s1 : State) : State :=
  let m := b.Header.Miner
  let s2 := { s1 with Balances := mapSet s1.Balances m (mapGet s1.Balances m + BlockReward) }
  if s2.IsTIP1Fork = true then
    { s2 with Balances := mapSet s2.Balances m (mapGet s2.Balances m + b.GasReward) }
  else
    { s2 with Balances := mapSet s2.Balances m (mapGet s2.Balances m + b.TXs.length * TxFee) }

/-- Go `applyBlock`: sequence and linkage checks, proof-of-work check,
transaction application, then the miner credit (block reward plus the
fork-gated top-up). -/
def applyBlock (E : Ext) (b : Block) (s : State) : Except Err State :=
  if s.hasGenesisBlock = true ∧ b.Header.Number ≠ s.latestBlock.Header.Number + 1 then
    Except.error (.wrongBlockNumber (s.latestBlock.Header.Number + 1) b.Header.Number)
  else if s.hasGenesisBlock = true ∧ 0 < s.latestBlock.Header.Number ∧
      b.Header.Parent ≠ s.latestBlockHash then
    Except.error (.wrongParent s.latestBlockHash b.Header.Parent)
  else
    match E.blockHash b with
    | .error _ => Except.error .hashError
    | .ok hash =>
      if E.isBlockHashValid hash s.miningDifficulty = false then
        Except.error (.invalidBlockHash hash)
      else
        match applyTXs E b.TXs s with
        | .error e => Except.error e
        | .ok s1 => Except.ok (creditMiner b s1)

/-- Go `State.AddBlock`, in state-passing style: speculatively apply the
block to a copy, hash, serialize and append the record, and only then swap
the validated tables into the live state.  The second component is the
live state after the call; every failing return site leaves it exactly as
received. -/
def AddBlock (E : Ext) (b : Block) (s : State) : Except Err Hash × State :=
  let pendingState := s.Copy
  match applyBlock E b pendingState with
  | .error e => (Except.error e, s)
  | .ok pending1 =>
    match E.blockHash b with
    | .error _ => (Except.error .hashError, s)
    | .ok blockHash =>
      if E.marshalOk blockHash b = false then (Except.error .marshalError, s)
      else if E.writeOk blockHash b = false then (Except.error .writeError, s)
      else
        (Except.ok blockHash,
          { s with
            dbLog := s.dbLog ++ [(blockHash, b)]
            Balances := pending1.Balances
            Account2Nonce := pending1.Account2Nonce
            latestBlockHash := blockHash
            latestBlock := b
            hasGenesisBlock := true
            miningDifficulty := pending1.miningDifficulty })

/-- Go `Genesis`: the seed balance table and the fork-activation height
(the symbol field is irrelevant to the engine). -/
structure Genesis where
  Balances : List (Address × Nat)
  ForkTIP1 : Nat
deriving DecidableEq, Repr

/-- One line of the blocks-db file as the replay loop of `NewStateFromDisk`
classifies it: empty (`len == 0`), malformed (`json.Unmarshal` fails), or a
well-formed `BlockFS` record carrying a hash key and a block value. -/
inductive LogRecord where
  | empty
  | malformed
  | wellFormed (key : Hash) (value : Block)
deriving DecidableEq, Repr

/-- Whether a record is the well-formed case. -/
def LogRecord.isWellFormed : LogRecord → Bool
  | .wellFormed _ _ => true
  | _ => false

/-- The state `NewStateFromDisk` builds before the replay loop (Go line
`state := &State{balances, account2nonce, f, Block{}, Hash{}, false,
miningDifficulty, gen.ForkTIP1}`). -/
def initState (gen : Genesis) (miningDifficulty : Nat) : State :=
  { Balances := gen.Balances
    Account2Nonce := []
    dbLog := []
    latestBlock := Block.zero
    latestBlockHash := 0
    hasGenesisBlock := false
    miningDifficulty := miningDifficulty
    forkTIP1 := gen.ForkTIP1 }

/-- The replay loop of Go `NewStateFromDisk`: an empty line breaks out of
the loop (end of log), a malformed line is a hard error (`return nil, err`
after `json.Unmarshal` fails), and a well-formed record is applied and
promoted to latest. -/
def replayLoop (E : Ext) : List LogRecord → State → Except Err State
  | [], s => Except.ok s
  | r :: rest, s =>
    match r with
    | .empty => Except.ok s
    | .malformed => Except.error .unmarshalError
    | .wellFormed k b =>
      match applyBlock E b s with
      | .error e => Except.error e
      | .ok s1 =>
        replayLoop E rest
          { s1 with latestBlock := b, latestBlockHash := k, hasGenesisBlock := true }

/-- Go `NewStateFromDisk`, with the genesis artifact already loaded and the
lines of the blocks-db file given as classified records (the data-dir
bootstrap and file open are external; their failures abort before this
point). -/
def NewStateFromDisk (E : Ext) (gen : Genesis) (miningDifficulty : Nat)
    (log : List LogRecord) : Except Err State :=
  replayLoop E log (initState gen miningDifficulty)

/-! Basic lemmas about the map operations and `ValidateTx`. -/

/-- Reading the key just written returns the written value. -/
theorem mapGet_mapSet_self (m : List (Address × Nat)) (a : Address) (v : Nat) :
    mapGet (mapSet m a v) a = v := by
  induction m with
  | nil => simp [mapGet, mapSet]
  | cons p rest ih =>
    obtain ⟨k, w⟩ := p
    by_cases h : k = a
    · subst h; simp [mapGet, mapSet]
    · simp [mapGet, mapSet, h, ih]

/-- Writing one key does not change the read of any other key. -/
theorem mapGet_mapSet_ne (m : List (Address × Nat)) (a b : Address) (v : Nat) (h : b ≠ a) :
    mapGet (mapSet m a v) b = mapGet m b := by
  induction m with
  | nil => simp [mapGet, mapSet, Ne.symm h]
  | cons p rest ih =>
    obtain ⟨k, w⟩ := p
    by_cases hk : k = a
    · subst hk; simp [mapGet, mapSet, Ne.symm h]
    · simp [mapGet, mapSet, hk, ih]

/-- A key with no entry reads as zero. -/
theorem mapGet_eq_zero (m : List (Address × Nat)) (a : Address)
    (h : ∀ p ∈ m, p.1 ≠ a) : mapGet m a = 0 := by
  induction m with
  | nil => rfl
  | cons p rest ih =>
    obtain ⟨k, w⟩ := p
    have hk : k ≠ a := h (k, w) (List.mem_cons_self _ _)
    simpa [mapGet, hk] using ih (fun q hq => h q (List.mem_cons_of_mem _ hq))

/-- Every return site of `ValidateTx` hands back the state it received. -/
theorem validateTx_snd (E : Ext) (tx : SignedTx) (s : State) :
    (ValidateTx E tx s).2 = s := by
  unfold ValidateTx
  repeat' split
  all_goals rfl

/-- When validation succeeds, the total cost is within the sender's
balance (the balance check only rejects a strictly larger cost). -/
theorem validateTx_ok_cost_le (E : Ext) (tx : SignedTx) (s : State)
    (h : (ValidateTx E tx s).1 = Except.ok ()) :
    tx.Cost s.IsTIP1Fork ≤ mapGet s.Balances tx.From := by
  unfold ValidateTx at h
  repeat' split at h
  all_goals simp_all

/-- The gas-field check only produces the three gas-related errors. -/
theorem validateGasFields_error_shape (tx : SignedTx) (f : Bool) (e : Err)
    (h : validateGasFields tx f = Except.error e) :
    e = Err.insufficientGas tx.Gas TxGas ∨
    e = Err.insufficientGasPrice tx.GasPrice TxGasPriceDefault ∨
    e = Err.prematureGasFields := by
  unfold validateGasFields at h
  repeat' split at h
  all_goals simp_all

/-- Gas-field check errors are transaction-validation errors. -/
theorem validateGasFields_error_isTxErr (tx : SignedTx) (f : Bool) (e : Err)
    (h : validateGasFields tx f = Except.error e) : e.isTxErr = true := by
  rcases validateGasFields_error_shape tx f e h with h1 | h1 | h1 <;>
    simp [h1, Err.isTxErr]

/-- Every error `ValidateTx` can produce is a transaction-validation
error (never a block-level or persistence error). -/
theorem validateTx_error_isTxErr (E : Ext) (tx : SignedTx) (s : State) (e : Err)
    (h : (ValidateTx E tx s).1 = Except.error e) : e.isTxErr = true := by
  unfold ValidateTx at h
  repeat' split at h
  all_goals try simp_all [Err.isTxErr]
  all_goals subst h
  all_goals try rfl
  all_goals exact validateGasFields_error_isTxErr _ _ _ (by assumption)

/-! Lemmas about `ApplyTx` and the transaction-application loop. -/

theorem applyTx_ok_elim (E : Ext) (tx : SignedTx) (s s' : State)
    (h : ApplyTx E tx s = Except.ok s') :
    (ValidateTx E tx s).1 = Except.ok () ∧
    s' = { s with
      Balances := mapSet
        (mapSet s.Balances tx.From (mapGet s.Balances tx.From - tx.Cost s.IsTIP1Fork))
        tx.To
        (mapGet (mapSet s.Balances tx.From
          (mapGet s.Balances tx.From - tx.Cost s.IsTIP1Fork)) tx.To + tx.Value)
      Account2Nonce := mapSet s.Account2Nonce tx.From tx.Nonce } := by
  have hsnd := validateTx_snd E tx s
  unfold ApplyTx at h
  rcases hV : ValidateTx E tx s with ⟨r, st⟩
  rw [hV] at h hsnd
  simp at hsnd
  subst hsnd
  cases r with
  | error e => simp at h
  | ok u =>
    cases u
    simp at h
    exact ⟨rfl, h.symm⟩

theorem applyTx_frame (E : Ext) (tx : SignedTx) (s s' : State)
    (h : ApplyTx E tx s = Except.ok s') :
    s'.dbLog = s.dbLog ∧ s'.latestBlock = s.latestBlock ∧
    s'.latestBlockHash = s.latestBlockHash ∧ s'.hasGenesisBlock = s.hasGenesisBlock ∧
    s'.miningDifficulty = s.miningDifficulty ∧ s'.forkTIP1 = s.forkTIP1 := by
  rcases applyTx_ok_elim E tx s s' h with ⟨-, h2⟩
  subst h2
  simp

theorem applyTx_error_isTxErr (E : Ext) (tx : SignedTx) (s : State) (e : Err)
    (h : ApplyTx E tx s = Except.error e) : e.isTxErr = true := by
  unfold ApplyTx at h
  rcases hV : ValidateTx E tx s with ⟨r, st⟩
  rw [hV] at h
  cases r with
  | error e1 =>
    simp at h
    subst h
    exact validateTx_error_isTxErr E tx s e1 (by rw [hV])
  | ok u => cases u; simp at h

theorem applyTxList_error_isTxErr (E : Ext) (txs : List SignedTx) (s : State) (e : Err)
    (h : applyTxList E txs s = Except.error e) : e.isTxErr = true := by
  induction txs generalizing s with
  | nil => simp [applyTxList] at h
  | cons tx rest ih =>
    unfold applyTxList at h
    cases hA : ApplyTx E tx s with
    | error e1 =>
      rw [hA] at h
      simp at h
      subst h
      exact applyTx_error_isTxErr E tx s e1 hA
    | ok s1 =>
      rw [hA] at h
      exact ih s1 h

theorem applyTXs_error_isTxErr (E : Ext) (txs : List SignedTx) (s : State) (e : Err)
    (h : applyTXs E txs s = Except.error e) : e.isTxErr = true :=
  applyTxList_error_isTxErr E (sortTxsByTime txs) s e h

theorem applyTxList_frame (E : Ext) (txs : List SignedTx) (s s' : State)
    (h : applyTxList E txs s = Except.ok s') :
    s'.dbLog = s.dbLog ∧ s'.latestBlock = s.latestBlock ∧
    s'.latestBlockHash = s.latestBlockHash ∧ s'.hasGenesisBlock = s.hasGenesisBlock ∧
    s'.miningDifficulty = s.miningDifficulty ∧ s'.forkTIP1 = s.forkTIP1 := by
  induction txs generalizing s with
  | nil =>
    simp [applyTxList] at h
    subst h
    exact ⟨rfl, rfl, rfl, rfl, rfl, rfl⟩
  | cons tx rest ih =>
    unfold applyTxList at h
    cases hA : ApplyTx E tx s with
    | error e1 => rw [hA] at h; simp at h
    | ok s1 =>
      rw [hA] at h
      have h1 := applyTx_frame E tx s s1 hA
      have h2 := ih s1 h
      exact ⟨h2.1.trans h1.1, h2.2.1.trans h1.2.1, h2.2.2.1.trans h1.2.2.1,
        h2.2.2.2.1.trans h1.2.2.2.1, h2.2.2.2.2.1.trans h1.2.2.2.2.1,
        h2.2.2.2.2.2.trans h1.2.2.2.2.2⟩

theorem applyTXs_frame (E : Ext) (txs : List SignedTx) (s s' : State)
    (h : applyTXs E txs s = Except.ok s') :
    s'.dbLog = s.dbLog ∧ s'.latestBlock = s.latestBlock ∧
    s'.latestBlockHash = s.latestBlockHash ∧ s'.hasGenesisBlock = s.hasGenesisBlock ∧
    s'.miningDifficulty = s.miningDifficulty ∧ s'.forkTIP1 = s.forkTIP1 :=
  applyTxList_frame E (sortTxsByTime txs) s s' h

theorem isTIP1Fork_congr (s1 s2 : State) (h1 : s1.hasGenesisBlock = s2.hasGenesisBlock)
    (h2 : s1.latestBlock = s2.latestBlock) (h3 : s1.forkTIP1 = s2.forkTIP1) :
    s1.IsTIP1Fork = s2.IsTIP1Fork := by
  unfold State.IsTIP1Fork State.NextBlockNumber
  rw [h1, h2, h3]

theorem applyTXs_fork (E : Ext) (txs : List SignedTx) (s s' : State)
    (h : applyTXs E txs s = Except.ok s') : s'.IsTIP1Fork = s.IsTIP1Fork := by
  rcases applyTXs_frame E txs s s' h with ⟨-, hlb, -, hg, -, hf⟩
  exact isTIP1Fork_congr s' s hg hlb hf

/-! Lemmas about `creditMiner` and `applyBlock`. -/

theorem isTIP1Fork_update_balances (s : State) (x : List (Address × Nat)) :
    ({ s with Balances := x } : State).IsTIP1Fork = s.IsTIP1Fork := rfl

theorem creditMiner_miner (b : Block) (s1 : State) :
    mapGet (creditMiner b s1).Balances b.Header.Miner =
      mapGet s1.Balances b.Header.Miner + BlockReward +
        (if s1.IsTIP1Fork = true then b.GasReward else b.TXs.length * TxFee) := by
  unfold creditMiner
  simp only [isTIP1Fork_update_balances]
  split <;> simp_all [mapGet_mapSet_self]

theorem creditMiner_other (b : Block) (s1 : State) (a : Address)
    (h : a ≠ b.Header.Miner) :
    mapGet (creditMiner b s1).Balances a = mapGet s1.Balances a := by
  unfold creditMiner
  simp only [isTIP1Fork_update_balances]
  split <;> simp [mapGet_mapSet_ne _ _ _ _ h]

theorem creditMiner_nonce (b : Block) (s1 : State) :
    (creditMiner b s1).Account2Nonce = s1.Account2Nonce := by
  unfold creditMiner
  simp only [isTIP1Fork_update_balances]
  split <;> rfl

theorem applyBlock_ok_elim (E : Ext) (b : Block) (s s' : State)
    (h : applyBlock E b s = Except.ok s') :
    ∃ s1, applyTXs E b.TXs s = Except.ok s1 ∧ s' = creditMiner b s1 := by
  unfold applyBlock at h
  by_cases c1 : s.hasGenesisBlock = true ∧ b.Header.Number ≠ s.latestBlock.Header.Number + 1
  · rw [if_pos c1] at h; exact absurd h (by simp)
  · rw [if_neg c1] at h
    by_cases c2 : s.hasGenesisBlock = true ∧ 0 < s.latestBlock.Header.Number ∧
        b.Header.Parent ≠ s.latestBlockHash
    · rw [if_pos c2] at h; exact absurd h (by simp)
    · rw [if_neg c2] at h
      cases hB : E.blockHash b with
      | error u => rw [hB] at h; exact absurd h (by simp)
      | ok hash =>
        rw [hB] at h
        dsimp only at h
        by_cases c3 : E.isBlockHashValid hash s.miningDifficulty = false
        · rw [if_pos c3] at h; exact absurd h (by simp)
        · rw [if_neg c3] at h
          cases hA : applyTXs E b.TXs s with
          | error e => rw [hA] at h; exact absurd h (by simp)
          | ok s1 =>
            rw [hA] at h
            exact ⟨s1, rfl, (Except.ok.inj h).symm⟩

theorem applyBlock_error_elim (E : Ext) (b : Block) (s : State) (e : Err)
    (h : applyBlock E b s = Except.error e) :
    (s.hasGenesisBlock = true ∧ b.Header.Number ≠ s.latestBlock.Header.Number + 1 ∧
      e = Err.wrongBlockNumber (s.latestBlock.Header.Number + 1) b.Header.Number) ∨
    (s.hasGenesisBlock = true ∧ b.Header.Number = s.latestBlock.Header.Number + 1 ∧
      0 < s.latestBlock.Header.Number ∧ b.Header.Parent ≠ s.latestBlockHash ∧
      e = Err.wrongParent s.latestBlockHash b.Header.Parent) ∨
    e = Err.hashError ∨ (∃ h0, e = Err.invalidBlockHash h0) ∨ e.isTxErr = true := by
  unfold applyBlock at h
  by_cases c1 : s.hasGenesisBlock = true ∧ b.Header.Number ≠ s.latestBlock.Header.Number + 1
  · rw [if_pos c1] at h
    exact Or.inl ⟨c1.1, c1.2, (Except.error.inj h).symm⟩
  · rw [if_neg c1] at h
    by_cases c2 : s.hasGenesisBlock = true ∧ 0 < s.latestBlock.Header.Number ∧
        b.Header.Parent ≠ s.latestBlockHash
    · rw [if_pos c2] at h
      have hnum : b.Header.Number = s.latestBlock.Header.Number + 1 := by
        rcases not_and_or.mp c1 with hc | hc
        · exact absurd c2.1 hc
        · exact not_not.mp hc
      exact Or.inr (Or.inl ⟨c2.1, hnum, c2.2.1, c2.2.2, (Except.error.inj h).symm⟩)
    · rw [if_neg c2] at h
      cases hB : E.blockHash b with
      | error u =>
        rw [hB] at h
        exact Or.inr (Or.inr (Or.inl (Except.error.inj h).symm))
      | ok hash =>
        rw [hB] at h
        dsimp only at h
        by_cases c3 : E.isBlockHashValid hash s.miningDifficulty = false
        · rw [if_pos c3] at h
          exact Or.inr (Or.inr (Or.inr (Or.inl ⟨hash, (Except.error.inj h).symm⟩)))
        · rw [if_neg c3] at h
          cases hA : applyTXs E b.TXs s with
          | error e1 =>
            rw [hA] at h
            have he : e1 = e := Except.error.inj h
            subst he
            exact Or.inr (Or.inr (Or.inr (Or.inr (applyTXs_error_isTxErr E b.TXs s e1 hA))))
          | ok s1 =>
            rw [hA] at h
            exact absurd h (by simp)

/-! The reduced form of `ValidateTx` past the authenticity and nonce checks, and the replay-loop tail lemma. -/

theorem validateTx_result (E : Ext) (tx : SignedTx) (s : State)
    (hAuth : E.isAuthentic tx = Except.ok true)
    (hNonce : tx.Nonce = s.GetNextAccountNonce tx.From) :
    (ValidateTx E tx s).1 =
      if s.IsTIP1Fork = true then
        if tx.Gas ≠ TxGas then Except.error (Err.insufficientGas tx.Gas TxGas)
        else if tx.GasPrice < TxGasPriceDefault then
          Except.error (Err.insufficientGasPrice tx.GasPrice TxGasPriceDefault)
        else if tx.Cost s.IsTIP1Fork > mapGet s.Balances tx.From then
          Except.error (Err.insufficientFunds (mapGet s.Balances tx.From)
            (tx.Cost s.IsTIP1Fork))
        else Except.ok ()
      else
        if tx.Gas ≠ 0 ∨ tx.GasPrice ≠ 0 then Except.error Err.prematureGasFields
        else if tx.Cost s.IsTIP1Fork > mapGet s.Balances tx.From then
          Except.error (Err.insufficientFunds (mapGet s.Balances tx.From)
            (tx.Cost s.IsTIP1Fork))
        else Except.ok () := by
  unfold ValidateTx validateGasFields
  rw [hAuth]
  simp only [Bool.true_eq_false, if_false, hNonce, ne_eq, not_true_eq_false]
  repeat' split
  all_goals simp_all

theorem replayLoop_append (E : Ext) (rest pre : List LogRecord) (s0 s : State)
    (h1 : pre.all LogRecord.isWellFormed = true)
    (h2 : replayLoop E pre s0 = Except.ok s) :
    replayLoop E (pre ++ LogRecord.empty :: rest) s0 = Except.ok s ∧
    replayLoop E (pre ++ LogRecord.malformed :: rest) s0 = Except.error Err.unmarshalError := by
  induction pre generalizing s0 with
  | nil =>
    simp [replayLoop] at h2
    subst h2
    exact ⟨rfl, rfl⟩
  | cons r pre ih =>
    cases r with
    | empty => simp [List.all_cons, LogRecord.isWellFormed] at h1
    | malformed => simp [List.all_cons, LogRecord.isWellFormed] at h1
    | wellFormed k b =>
      have h1' : pre.all LogRecord.isWellFormed = true := by
        rw [List.all_cons, Bool.and_eq_true] at h1
        exact h1.2
      unfold replayLoop at h2
      dsimp only at h2
      cases hA : applyBlock E b s0 with
      | error e => rw [hA] at h2; simp at h2
      | ok s1 =>
        rw [hA] at h2
        dsimp only at h2
        have hrec := ih _ h1' h2
        constructor
        · simp only [List.cons_append]
          unfold replayLoop
          dsimp only
          rw [hA]
          exact hrec.1
        · simp only [List.cons_append]
          unfold replayLoop
          dsimp only
          rw [hA]
          exact hrec.2

/-! Concrete fixtures for witnesses and counterexamples, followed by the claim theorems. -/

/-- An all-permissive capability bundle: every signature authentic, content
hash `0`, every hash valid for any difficulty, serialization and append
always succeed. -/
def extOk : Ext :=
  { isAuthentic := fun _ => Except.ok true
    blockHash := fun _ => Except.ok 0
    isBlockHashValid := fun _ _ => true
    marshalOk := fun _ _ => true
    writeOk := fun _ _ => true }

/-- A pre-fork transfer: account 1 sends 5 to account 2 with nonce 1. -/
def txEx : SignedTx :=
  { From := 1, To := 2, Value := 5, Nonce := 1, Gas := 0, GasPrice := 0, Time := 1, Sig := 0 }

/-- The same transfer with a skipped nonce (5 instead of the expected 2). -/
def txBadNonce : SignedTx :=
  { From := 1, To := 2, Value := 5, Nonce := 5, Gas := 0, GasPrice := 0, Time := 2, Sig := 0 }

/-- A transfer whose total pre-fork cost (78 + 22) equals the sender's
balance of 100 exactly. -/
def txEdge : SignedTx :=
  { From := 1, To := 2, Value := 78, Nonce := 1, Gas := 0, GasPrice := 0, Time := 1, Sig := 0 }

/-- A fresh pre-fork state: account 1 holds 100, no blocks committed. -/
def statePre : State :=
  { Balances := [(1, 100)], Account2Nonce := [], dbLog := [], latestBlock := Block.zero,
    latestBlockHash := 0, hasGenesisBlock := false, miningDifficulty := 1, forkTIP1 := 100 }

/-- The state `ApplyTx` produces from `statePre` and `txEx`:
100 - (5 + 22) = 73 for the sender, 5 for the recipient. -/
def stateAfterTx : State :=
  { statePre with Balances := [(1, 73), (2, 5)], Account2Nonce := [(1, 1)] }

/-- A block with no transactions, mined by account 9. -/
def blockEmpty : Block :=
  { Header := { Parent := 0, Number := 0, Nonce := 0, Time := 0, Miner := 9 }, TXs := [] }

/-- The state `applyBlock` produces from `statePre` and `blockEmpty`. -/
def stateAfterBlock : State :=
  { statePre with Balances := [(1, 100), (9, 100)] }

/-- A block whose first transaction is valid but whose second skips a
nonce, so the block fails part-way through its transaction list. -/
def blockPartial : Block :=
  { Header := { Parent := 0, Number := 0, Nonce := 0, Time := 0, Miner := 9 },
    TXs := [txEx, txBadNonce] }

/-- A state holding a committed block of number 0 (`blockEmpty`). -/
def stateWithGenesis : State :=
  { statePre with hasGenesisBlock := true, latestBlock := blockEmpty }

/-- A block claiming number 7 on top of a latest block of number 0. -/
def blockWrongNumber : Block :=
  { Header := { Parent := 0, Number := 7, Nonce := 0, Time := 0, Miner := 9 }, TXs := [] }

/-- A genesis artifact seeding account 1 with 100 and fork height 35. -/
def genEx : Genesis := { Balances := [(1, 100)], ForkTIP1 := 35 }

/-- C1: if `AddBlock` returns an error - from block validation, transaction
validation, hashing, serialization, or the log write - the live state is
unchanged afterwards in every component (balances, nonces, latest block,
latest block hash, genesis flag, difficulty), and nothing from the block
is appended to the persistent log. -/
theorem addBlock_error_leaves_live_state_unchanged (E : Ext) (b : Block) (s : State)
    (e : Err) (h : (AddBlock E b s).1 = Except.error e) :
    (AddBlock E b s).2 = s ∧ (AddBlock E b s).2.dbLog = s.dbLog := by
  suffices hs : (AddBlock E b s).2 = s by exact ⟨hs, by rw [hs]⟩
  unfold AddBlock at h ⊢
  dsimp only at h ⊢
  cases hP : applyBlock E b s.Copy with
  | error e1 => rfl
  | ok p1 =>
    rw [hP] at h
    dsimp only at h ⊢
    cases hB : E.blockHash b with
    | error u => rfl
    | ok bh =>
      rw [hB] at h
      dsimp only at h ⊢
      by_cases c1 : E.marshalOk bh b = false
      · rw [if_pos c1]
      · rw [if_neg c1] at h ⊢
        by_cases c2 : E.writeOk bh b = false
        · rw [if_pos c2]
        · rw [if_neg c2] at h
          simp at h

/-- C1 witness: a block whose first transaction is valid and whose second
has a bad nonce is rejected by `AddBlock`, and the live state afterwards
equals the state before the call. -/
theorem addBlock_error_leaves_live_state_unchanged_witness :
    (AddBlock extOk blockPartial statePre).1 = Except.error (Err.badNonce 2 5) ∧
    (AddBlock extOk blockPartial statePre).2 = statePre :=
  ⟨by decide,
    (addBlock_error_leaves_live_state_unchanged extOk blockPartial statePre
      (Err.badNonce 2 5) (by decide)).1⟩

/-- C4 counterexample: with no log records, startup succeeds with the seed
state; with a single malformed (non-empty, unparseable) record, startup
fails with a hard error instead of returning the state built from the
preceding records, contradicting the claim that a malformed record is
treated as end-of-log. -/
theorem newStateFromDisk_malformed_hard_error_cex :
    NewStateFromDisk extOk genEx 1 [] = Except.ok (initState genEx 1) ∧
    NewStateFromDisk extOk genEx 1 [LogRecord.malformed] = Except.error Err.unmarshalError ∧
    NewStateFromDisk extOk genEx 1 [LogRecord.malformed] ≠ Except.ok (initState genEx 1) := by
  refine ⟨by decide, by decide, by decide⟩

/-- C4 amended: replay reads records in file order; the first EMPTY record
is treated as end-of-log, returning the state built from the preceding
well-formed records, while a malformed non-empty record is a hard error
that makes startup fail. -/
theorem newStateFromDisk_empty_is_end_of_log (E : Ext) (gen : Genesis) (d : Nat)
    (pre rest : List LogRecord) (s : State)
    (h1 : pre.all LogRecord.isWellFormed = true)
    (h2 : NewStateFromDisk E gen d pre = Except.ok s) :
    NewStateFromDisk E gen d (pre ++ LogRecord.empty :: rest) = Except.ok s ∧
    NewStateFromDisk E gen d (pre ++ LogRecord.malformed :: rest) =
      Except.error Err.unmarshalError := by
  unfold NewStateFromDisk at h2 ⊢
  exact replayLoop_append E rest pre (initState gen d) s h1 h2

/-- C4 amended witness: on the empty prefix, an empty record ends the log
cleanly while a malformed record aborts startup. -/
theorem newStateFromDisk_empty_is_end_of_log_witness :
    NewStateFromDisk extOk genEx 1 [LogRecord.empty] = Except.ok (initState genEx 1) ∧
    NewStateFromDisk extOk genEx 1 [LogRecord.malformed] = Except.error Err.unmarshalError :=
  newStateFromDisk_empty_is_end_of_log extOk genEx 1 [] [] (initState genEx 1)
    (by decide) (by decide)

/-- C5: when a block applies successfully, the miner's balance after the
block equals its balance after the block's transactions (which already
includes any value the miner received as a recipient) plus the fixed block
reward plus, when the fork is active, the block's gas reward (the sum of
gas times gas price over its transactions), otherwise the transaction
count times the flat fee; the credit touches no other account and no
nonce. -/
theorem applyBlock_miner_reward (E : Ext) (b : Block) (s s1 s' : State)
    (hA : applyTXs E b.TXs s = Except.ok s1)
    (h : applyBlock E b s = Except.ok s') :
    mapGet s'.Balances b.Header.Miner =
      mapGet s1.Balances b.Header.Miner + BlockReward +
        (if s.IsTIP1Fork = true then b.GasReward else b.TXs.length * TxFee) ∧
    (∀ a, a ≠ b.Header.Miner → mapGet s'.Balances a = mapGet s1.Balances a) ∧
    s'.Account2Nonce = s1.Account2Nonce := by
  rcases applyBlock_ok_elim E b s s' h with ⟨t1, hA', hs'⟩
  rw [hA] at hA'
  have ht : t1 = s1 := (Except.ok.inj hA').symm
  subst ht
  subst hs'
  have hfork := applyTXs_fork E b.TXs s t1 hA
  refine ⟨?_, ?_, creditMiner_nonce b t1⟩
  · rw [creditMiner_miner, hfork]
  · intro a ha
    exact creditMiner_other b t1 a ha

/-- C5 witness: applying the empty block to the fresh state credits miner 9
with the block reward plus zero transactions times the flat fee. -/
theorem applyBlock_miner_reward_witness :
    mapGet stateAfterBlock.Balances 9 =
      mapGet statePre.Balances 9 + BlockReward +
        (if statePre.IsTIP1Fork = true then blockEmpty.GasReward
         else blockEmpty.TXs.length * TxFee) :=
  (applyBlock_miner_reward extOk blockEmpty statePre statePre stateAfterBlock
    (by decide) (by decide)).1

/-- C8 counterexample: `txEx` (value 5, pre-fork cost 27) applies
successfully, and the sender's balance does not drop by value plus cost
(claimed 100 - 32 = 68); the code debits the cost alone, leaving 73. -/
theorem applyTx_sender_debit_cex :
    ApplyTx extOk txEx statePre = Except.ok stateAfterTx ∧
    mapGet stateAfterTx.Balances txEx.From ≠
      mapGet statePre.Balances txEx.From -
        (txEx.Value + txEx.Cost statePre.IsTIP1Fork) := by
  refine ⟨by decide, by decide⟩

/-- C8 amended: a successfully applied transaction between distinct sender
and recipient debits the sender by exactly the total cost (value plus
gas times gas price when the fork is active, value plus the flat fee
otherwise), credits the recipient by exactly the value, sets the sender's
last-used nonce to the transaction's nonce, and changes no other account's
balance or nonce. -/
theorem applyTx_transfer_effects (E : Ext) (tx : SignedTx) (s s' : State)
    (hNe : tx.From ≠ tx.To) (h : ApplyTx E tx s = Except.ok s') :
    mapGet s.Balances tx.From = mapGet s'.Balances tx.From + tx.Cost s.IsTIP1Fork ∧
    mapGet s'.Balances tx.To = mapGet s.Balances tx.To + tx.Value ∧
    mapGet s'.Account2Nonce tx.From = tx.Nonce ∧
    (∀ a, a ≠ tx.From → a ≠ tx.To → mapGet s'.Balances a = mapGet s.Balances a) ∧
    (∀ a, a ≠ tx.From → mapGet s'.Account2Nonce a = mapGet s.Account2Nonce a) := by
  rcases applyTx_ok_elim E tx s s' h with ⟨hok, hs'⟩
  have hle := validateTx_ok_cost_le E tx s hok
  subst hs'
  dsimp only
  refine ⟨?_, ?_, mapGet_mapSet_self _ _ _, ?_, ?_⟩
  · rw [mapGet_mapSet_ne _ _ _ _ hNe, mapGet_mapSet_self]
    omega
  · rw [mapGet_mapSet_self, mapGet_mapSet_ne _ _ _ _ (Ne.symm hNe)]
  · intro a h1 h2
    rw [mapGet_mapSet_ne _ _ _ _ h2, mapGet_mapSet_ne _ _ _ _ h1]
  · intro a h1
    exact mapGet_mapSet_ne _ _ _ _ h1

/-- C8 amended witness: for the concrete transfer `txEx` the sender drops
from 100 to 73 (exactly the cost 27) and the recipient gains exactly 5. -/
theorem applyTx_transfer_effects_witness :
    mapGet statePre.Balances txEx.From =
      mapGet stateAfterTx.Balances txEx.From + txEx.Cost statePre.IsTIP1Fork ∧
    mapGet stateAfterTx.Balances txEx.To = mapGet statePre.Balances txEx.To + txEx.Value :=
  ⟨(applyTx_transfer_effects extOk txEx statePre stateAfterTx (by decide) (by decide)).1,
   (applyTx_transfer_effects extOk txEx statePre stateAfterTx (by decide) (by decide)).2.1⟩

/-- C9: `ValidateTx` never mutates the snapshot: the balance table, nonce
table, latest block, latest block hash, genesis flag, difficulty and fork
threshold after the call all equal their values before it, whether the
result is success or any error. -/
theorem validateTx_leaves_snapshot_unchanged (E : Ext) (tx : SignedTx) (s : State) :
    (ValidateTx E tx s).2.Balances = s.Balances ∧
    (ValidateTx E tx s).2.Account2Nonce = s.Account2Nonce ∧
    (ValidateTx E tx s).2.latestBlock = s.latestBlock ∧
    (ValidateTx E tx s).2.latestBlockHash = s.latestBlockHash ∧
    (ValidateTx E tx s).2.hasGenesisBlock = s.hasGenesisBlock ∧
    (ValidateTx E tx s).2.miningDifficulty = s.miningDifficulty ∧
    (ValidateTx E tx s).2.forkTIP1 = s.forkTIP1 ∧
    (ValidateTx E tx s).2 = s := by
  have h := validateTx_snd E tx s
  rw [h]
  exact ⟨rfl, rfl, rfl, rfl, rfl, rfl, rfl, rfl⟩

/-- C10: when validation succeeds the transaction's cost at the current
fork setting is at most the sender's balance, so the unsigned debit in
`ApplyTx` cannot underflow; the balance check produces its
insufficient-funds error only when the cost strictly exceeds the balance,
so a cost equal to the balance is accepted. -/
theorem validateTx_ok_no_underflow (E : Ext) (tx : SignedTx) (s : State) :
    ((ValidateTx E tx s).1 = Except.ok () →
      tx.Cost s.IsTIP1Fork ≤ mapGet s.Balances tx.From) ∧
    (∀ bal c, (ValidateTx E tx s).1 = Except.error (Err.insufficientFunds bal c) →
      bal = mapGet s.Balances tx.From ∧ c = tx.Cost s.IsTIP1Fork ∧ bal < c) := by
  constructor
  · exact validateTx_ok_cost_le E tx s
  · intro bal c h
    unfold ValidateTx at h
    repeat' split at h
    all_goals try simp_all
    all_goals
      rcases validateGasFields_error_shape _ _ _ (by assumption) with h1 | h1 | h1 <;>
        simp_all

/-- C10 witness: a transaction whose cost exactly equals the sender's
balance passes validation, and its cost is within the balance. -/
theorem validateTx_ok_no_underflow_witness :
    txEdge.Cost statePre.IsTIP1Fork ≤ mapGet statePre.Balances txEdge.From ∧
    (ValidateTx extOk txEdge statePre).1 = Except.ok () :=
  ⟨(validateTx_ok_no_underflow extOk txEdge statePre).1 (by decide), by decide⟩

/-- C3: with the fork defined as next block number reaching the configured
threshold, and for a transaction that has passed the authenticity and nonce
checks: when the fork is active, validation fails with the
insufficient-gas error exactly when the gas differs from the protocol
constant 22, and (once the gas check passes) with the
insufficient-gas-price error exactly when the gas price is below the
minimum 2; when the fork is inactive, validation fails with the
premature-gas-fields error exactly when gas or gas price is non-zero. -/
theorem validateTx_gas_fork_gating (E : Ext) (tx : SignedTx) (s : State)
    (hAuth : E.isAuthentic tx = Except.ok true)
    (hNonce : tx.Nonce = s.GetNextAccountNonce tx.From) :
    (s.IsTIP1Fork = true ↔ s.forkTIP1 ≤ s.NextBlockNumber) ∧
    (s.IsTIP1Fork = true →
      (((ValidateTx E tx s).1 = Except.error (Err.insufficientGas tx.Gas TxGas)) ↔
        tx.Gas ≠ TxGas) ∧
      (tx.Gas = TxGas →
        (((ValidateTx E tx s).1 =
            Except.error (Err.insufficientGasPrice tx.GasPrice TxGasPriceDefault)) ↔
          tx.GasPrice < TxGasPriceDefault))) ∧
    (s.IsTIP1Fork = false →
      (((ValidateTx E tx s).1 = Except.error Err.prematureGasFields) ↔
        (tx.Gas ≠ 0 ∨ tx.GasPrice ≠ 0))) := by
  have hred := validateTx_result E tx s hAuth hNonce
  refine ⟨by simp [State.IsTIP1Fork], ?_, ?_⟩
  · intro hf
    rw [hf] at hred
    simp only [if_true] at hred
    constructor
    · rw [hred]
      split_ifs <;> simp_all
    · intro hGas
      rw [hred]
      split_ifs <;> simp_all
  · intro hf
    rw [hf] at hred
    simp only [Bool.false_eq_true, if_false] at hred
    rw [hred]
    split_ifs <;> simp_all

/-- C3 witness: in the pre-fork state the transaction with zero gas fields
is not rejected for premature gas fields, matching the iff at a concrete
input. -/
theorem validateTx_gas_fork_gating_witness :
    ((ValidateTx extOk txEx statePre).1 = Except.error Err.prematureGasFields) ↔
      (txEx.Gas ≠ 0 ∨ txEx.GasPrice ≠ 0) :=
  (validateTx_gas_fork_gating extOk txEx statePre (by decide) (by decide)).2.2 (by decide)

/-- C6: the next account nonce is the last-used nonce plus one, an account
absent from the nonce table having last-used nonce zero (so its next nonce
is one); and for an authentic transaction, validation fails with the
bad-nonce error exactly when the transaction's nonce differs from the next
account nonce of its sender. -/
theorem nextNonce_and_badNonce (E : Ext) (tx : SignedTx) (s : State)
    (hAuth : E.isAuthentic tx = Except.ok true) :
    (∀ a, s.GetNextAccountNonce a = mapGet s.Account2Nonce a + 1) ∧
    (∀ a, (∀ p ∈ s.Account2Nonce, p.1 ≠ a) → s.GetNextAccountNonce a = 1) ∧
    (((ValidateTx E tx s).1 =
        Except.error (Err.badNonce (s.GetNextAccountNonce tx.From) tx.Nonce)) ↔
      tx.Nonce ≠ s.GetNextAccountNonce tx.From) := by
  refine ⟨fun a => rfl,
    fun a ha => by simp [State.GetNextAccountNonce, mapGet_eq_zero _ _ ha], ?_⟩
  by_cases hN : tx.Nonce = s.GetNextAccountNonce tx.From
  · rw [validateTx_result E tx s hAuth hN]
    constructor
    · intro h
      split_ifs at h <;> simp_all
    · intro h
      exact absurd hN h
  · constructor
    · intro _
      exact hN
    · intro _
      unfold ValidateTx
      rw [hAuth]
      simp [hN]

/-- C6 witness: for the skipped-nonce transaction the bad-nonce error is
produced, and the iff holds at the concrete input. -/
theorem nextNonce_and_badNonce_witness :
    ((ValidateTx extOk txBadNonce statePre).1 =
      Except.error (Err.badNonce (statePre.GetNextAccountNonce txBadNonce.From)
        txBadNonce.Nonce)) ↔
      txBadNonce.Nonce ≠ statePre.GetNextAccountNonce txBadNonce.From :=
  (nextNonce_and_badNonce extOk txBadNonce statePre (by decide)).2.2

/-- C7: on a state holding a committed block, `applyBlock` fails with the
wrong-block-number error exactly when the block's number differs from the
latest number plus one, and - when the number is right - with the
wrong-parent error exactly when the latest number is positive and the
block's parent differs from the latest hash; with no committed block,
neither error can occur (both checks are skipped). -/
theorem applyBlock_sequence_and_linkage_checks (E : Ext) (b : Block) (s : State) :
    (s.hasGenesisBlock = true →
      ((applyBlock E b s =
          Except.error (Err.wrongBlockNumber (s.latestBlock.Header.Number + 1)
            b.Header.Number) ↔
        b.Header.Number ≠ s.latestBlock.Header.Number + 1) ∧
       (b.Header.Number = s.latestBlock.Header.Number + 1 →
        (applyBlock E b s =
            Except.error (Err.wrongParent s.latestBlockHash b.Header.Parent) ↔
          0 < s.latestBlock.Header.Number ∧ b.Header.Parent ≠ s.latestBlockHash)))) ∧
    (s.hasGenesisBlock = false →
      (∀ x y, applyBlock E b s ≠ Except.error (Err.wrongBlockNumber x y)) ∧
      (∀ x y, applyBlock E b s ≠ Except.error (Err.wrongParent x y))) := by
  constructor
  · intro hG
    constructor
    · constructor
      · intro h
        rcases applyBlock_error_elim E b s _ h with
          ⟨-, hne, -⟩ | ⟨-, -, -, -, heq⟩ | heq | ⟨h0, heq⟩ | hc
        · exact hne
        · simp at heq
        · simp at heq
        · simp at heq
        · simp [Err.isTxErr] at hc
      · intro hne
        unfold applyBlock
        rw [if_pos ⟨hG, hne⟩]
    · intro hnum
      constructor
      · intro h
        rcases applyBlock_error_elim E b s _ h with
          ⟨-, -, heq⟩ | ⟨-, -, hpos, hpar, -⟩ | heq | ⟨h0, heq⟩ | hc
        · simp at heq
        · exact ⟨hpos, hpar⟩
        · simp at heq
        · simp at heq
        · simp [Err.isTxErr] at hc
      · rintro ⟨hpos, hpar⟩
        unfold applyBlock
        rw [if_neg (by simp [hnum]), if_pos ⟨hG, hpos, hpar⟩]
  · intro hG
    constructor
    all_goals intro x y h
    all_goals rcases applyBlock_error_elim E b s _ h with
      ⟨hg, -, -⟩ | ⟨hg, -, -, -, -⟩ | heq | ⟨h0, heq⟩ | hc
    all_goals first
      | (rw [hG] at hg; exact Bool.noConfusion hg)
      | simp at heq
      | simp [Err.isTxErr] at hc

/-- C7 witness: a block numbered 7 on top of latest number 0 is rejected
with the wrong-block-number error carrying expected 1 and got 7. -/
theorem applyBlock_sequence_and_linkage_checks_witness :
    applyBlock extOk blockWrongNumber stateWithGenesis =
      Except.error (Err.wrongBlockNumber
        (stateWithGenesis.latestBlock.Header.Number + 1)
        blockWrongNumber.Header.Number) :=
  ((applyBlock_sequence_and_linkage_checks extOk blockWrongNumber
    stateWithGenesis).1 (by decide)).1.mpr (by decide)

end Tbb
